import Mathlib

/-!
Verification of the risk-scoring core of the vuln-prioritizer repository
(`src/backend/app/services/`): the risk scorer (`risk_scorer.py`), the
EPSS exploit-probability client (`epss_client.py`), the CISA KEV catalog
client (`kev_client.py`), and the bulk scoring orchestration.

Modelling conventions:
* Python floats are embedded as exact rationals (`ℚ`).  All the arithmetic
  of the scorer (weights, sums, the 1.5 multiplier, `min`) is exact on the
  values the claims quantify over; binary floating-point representation
  error is outside the model.
* Python `round(x, 2)` is embedded as round-half-even to two decimals on
  the exact rational.  (For floats Python rounds the binary value; the two
  agree except at half-cent ties hit only up to representation error.)
* Python `x or default` on an optional float is truthiness-based: it
  substitutes the default both when `x` is `None` and when `x == 0.0`.
  This is embedded faithfully by `pyOr`.
* Network effects are embedded as explicit inputs: each fetch outcome is an
  `Except Unit` value (an `Except.error` is a raised exception), and module
  state (the KEV catalog, the EPSS cache) is passed explicitly.
-/

/-- Python `x or d` for an optional float: `None` and `0.0` are both falsy,
so either is replaced by the default `d`. -/
def pyOr (x : Option ℚ) (d : ℚ) : ℚ :=
  match x with
  | none => d
  | some v => if v = 0 then d else v

/-- Round a rational to the nearest integer, ties to the even neighbour
(Python `round` semantics on exact values). -/
def roundHalfEven (x : ℚ) : ℤ :=
  if x - ⌊x⌋ = 1/2 then (if 2 ∣ ⌊x⌋ then ⌊x⌋ else ⌊x⌋ + 1) else ⌊x + 1/2⌋

/-- Python `round(x, 2)`: round to two decimal places. -/
def round2 (x : ℚ) : ℚ := (roundHalfEven (x * 100) : ℚ) / 100

/-! ## Risk scorer (`risk_scorer.py`, `RiskScorer.calculate_risk_score`) -/

/-- Weight factor `CVSS_WEIGHT = 0.3`. -/
def CVSS_WEIGHT : ℚ := 3/10

/-- Weight factor `EPSS_WEIGHT = 0.35`. -/
def EPSS_WEIGHT : ℚ := 35/100

/-- Weight factor `KEV_WEIGHT = 0.25`. -/
def KEV_WEIGHT : ℚ := 25/100

/-- Weight factor `CONTEXT_WEIGHT = 0.1`. -/
def CONTEXT_WEIGHT : ℚ := 1/10

/-- Severity threshold `CRITICAL_THRESHOLD = 70`. -/
def CRITICAL_THRESHOLD : ℚ := 70

/-- Severity threshold `HIGH_THRESHOLD = 40`. -/
def HIGH_THRESHOLD : ℚ := 40

/-- Severity threshold `MEDIUM_THRESHOLD = 20`. -/
def MEDIUM_THRESHOLD : ℚ := 20

/-- The severity-tier if-chain of `calculate_risk_score` (lines 133-140),
as a function of the final (post-multiplier, unrounded) raw score. -/
def severityOf (s : ℚ) : String :=
  if CRITICAL_THRESHOLD ≤ s then "critical"
  else if HIGH_THRESHOLD ≤ s then "high"
  else if MEDIUM_THRESHOLD ≤ s then "medium"
  else "low"

/-- The internal `cvss_component` value: `cvss_normalized * CVSS_WEIGHT * 100`
where `cvss_normalized = (cvss_score or 5.0) / 10.0`. -/
def cvssComponent (cvss_score : Option ℚ) : ℚ :=
  pyOr cvss_score 5 / 10 * CVSS_WEIGHT * 100

/-- The internal `epss_component` value: `epss_normalized * EPSS_WEIGHT * 100`
where `epss_normalized = epss_score or 0.1`. -/
def epssComponent (epss_score : Option ℚ) : ℚ :=
  pyOr epss_score (1/10) * EPSS_WEIGHT * 100

/-- The internal `kev_component` value: `KEV_WEIGHT * 100` if `in_kev` else `0`. -/
def kevComponent (in_kev : Bool) : ℚ :=
  if in_kev then KEV_WEIGHT * 100 else 0

/-- The internal `context_component` value: `context_factor * CONTEXT_WEIGHT * 100`
where `context_factor = (asset_criticality + network_reachability) / 2`. -/
def contextComponent (asset_criticality network_reachability : ℚ) : ℚ :=
  (asset_criticality + network_reachability) / 2 * CONTEXT_WEIGHT * 100

/-- Python `min(a, b)` on two floats: the second argument replaces the first
only when strictly smaller. -/
def pymin (a b : ℚ) : ℚ := if b < a then b else a

/-- The `raw_score` after the component sum and, when `in_kev`, the
urgency multiplier `min(raw_score * 1.5, 100)` (lines 126-130).  This is the
value the severity tier is computed from and the value that is rounded into
the returned `risk_score`. -/
def finalRawScore (cvss_score epss_score : Option ℚ) (in_kev : Bool)
    (asset_criticality network_reachability : ℚ) : ℚ :=
  let raw := cvssComponent cvss_score + epssComponent epss_score +
    kevComponent in_kev + contextComponent asset_criticality network_reachability
  if in_kev then pymin (raw * (3/2)) 100 else raw

/-- The dictionary returned by `calculate_risk_score`: the rounded score, the
severity tier, the four rounded component values, and the echoed input factors. -/
structure ScoreResult where
  risk_score : ℚ
  severity : String
  cvss_component : ℚ
  epss_component : ℚ
  kev_component : ℚ
  context_component : ℚ
  f_cvss_score : Option ℚ
  f_epss_score : Option ℚ
  f_in_kev : Bool
  f_asset_criticality : ℚ
  f_network_reachability : ℚ
deriving DecidableEq

/-- `RiskScorer.calculate_risk_score` (risk_scorer.py lines 87-158).  Numeric
values are rounded to two decimals on return, exactly as in the source; the
severity tier is computed from the unrounded `raw_score`. -/
def calculate_risk_score (cvss_score epss_score : Option ℚ) (in_kev : Bool)
    (asset_criticality network_reachability : ℚ) : ScoreResult :=
  { risk_score := round2 (finalRawScore cvss_score epss_score in_kev
      asset_criticality network_reachability)
    severity := severityOf (finalRawScore cvss_score epss_score in_kev
      asset_criticality network_reachability)
    cvss_component := round2 (cvssComponent cvss_score)
    epss_component := round2 (epssComponent epss_score)
    kev_component := round2 (kevComponent in_kev)
    context_component := round2 (contextComponent asset_criticality network_reachability)
    f_cvss_score := cvss_score
    f_epss_score := epss_score
    f_in_kev := in_kev
    f_asset_criticality := asset_criticality
    f_network_reachability := network_reachability }

/-- The score-carrying part of a `ScoreResult`: everything except the echoed
input factors. -/
def scoringParts (r : ScoreResult) : ℚ × String × ℚ × ℚ × ℚ × ℚ :=
  (r.risk_score, r.severity, r.cvss_component, r.epss_component,
   r.kev_component, r.context_component)

/-! ## Claims C1-C4 and C10: the scoring function -/

/-- Modelled from the claim's words, for comparison with the source: the
severity component with only a genuinely missing cvss value defaulted to
5.0 (a present 0.0 is kept). -/
def claimSeverityComponent (cvss : Option ℚ) : ℚ :=
  cvss.getD 5 / 10 * (30/100) * 100

/-! ## Association-list embedding of Python dict / set

`dictGet`/`dictInsert` model Python dict lookup and `d[k] = v` (insert keeps
the first-insertion position, otherwise appends); `setAdd` models `set.add`.
-/

/-- Python `d.get(k)` on a string-keyed dict. -/
def dictGet {β : Type} (k : String) : List (String × β) → Option β
  | [] => none
  | (k', v) :: rest => if k' = k then some v else dictGet k rest

/-- Python `d[k] = v`: replace in place if the key exists, else append. -/
def dictInsert {β : Type} (k : String) (v : β) :
    List (String × β) → List (String × β)
  | [] => [(k, v)]
  | (k', v') :: rest =>
      if k' = k then (k, v) :: rest else (k', v') :: dictInsert k v rest

/-- Python `s.add(k)` on a set of strings (membership-idempotent). -/
def setAdd (k : String) (s : List String) : List String :=
  if k ∈ s then s else s ++ [k]

/-! ## EPSS client (`epss_client.py`) -/

/-- One parsed element of the EPSS response `data` array. -/
structure EpssRec where
  epss_score : ℚ
  percentile : ℚ
deriving DecidableEq

/-- `EPSSClient.get_epss_score` (epss_client.py lines 24-69).  The network
outcome is passed explicitly: `Except.error ()` stands for any exception in
the `try` block (HTTP error, timeout, malformed payload), `Except.ok l` for
the parsed `data` array.  The body wraps the whole fetch in
`try ... except Exception: return None`, so the function converts every
failure into `.ok none`: no exception ever escapes to the `@retry`
decorator or the caller.  (The cache write-back on success is not needed by
any claim and is omitted; it does not affect the returned value.) -/
def get_epss_score (cache : List (String × EpssRec))
    (fetch : Except Unit (List EpssRec)) (cve_id : String) :
    Except Unit (Option EpssRec) :=
  match dictGet cve_id cache with
  | some v => .ok (some v)
  | none =>
    match fetch with
    | .error _ => .ok none
    | .ok [] => .ok none
    | .ok (e :: _) => .ok (some e)

/-! ## KEV catalog client (`kev_client.py`) -/

/-- The raw fields of one catalog entry as read from the feed payload
(every `.get` may return null). -/
structure KevData where
  vendorProject : Option String
  product : Option String
  vulnerabilityName : Option String
  dateAdded : Option String
  dueDate : Option String
  shortDescription : Option String
  requiredAction : Option String
  knownRansomwareCampaignUse : Option String
deriving DecidableEq

/-- The value stored in `kev_catalog[cve_id]` (kev_client.py lines 50-60). -/
structure KevRecord where
  cve_id : String
  vendor : Option String
  product : Option String
  vulnerability_name : Option String
  date_added : Option String
  due_date : Option String
  short_description : Option String
  required_action : Option String
  known_ransomware_use : Bool
deriving DecidableEq

/-- Build the stored record from a payload entry, as the loop body does;
the ransomware flag is the comparison `knownRansomwareCampaignUse == "Known"`. -/
def mkKevRecord (cid : String) (d : KevData) : KevRecord :=
  { cve_id := cid
    vendor := d.vendorProject
    product := d.product
    vulnerability_name := d.vulnerabilityName
    date_added := d.dateAdded
    due_date := d.dueDate
    short_description := d.shortDescription
    required_action := d.requiredAction
    known_ransomware_use := d.knownRansomwareCampaignUse = some "Known" }

/-- One element of the payload's `vulnerabilities` array: either a
well-formed object carrying an optional `cveID` (absent or empty ids are
skipped by the `if cve_id:` guard), or a malformed non-object element, on
which `vuln.get("cveID")` raises mid-loop. -/
inductive KevItem where
  | malformed : KevItem
  | entry : Option String → KevData → KevItem
deriving DecidableEq

/-- The module-level mutable state of kev_client.py: the detail dict
`kev_catalog` and the membership set `kev_cve_set`. -/
structure KevState where
  catalog : List (String × KevRecord)
  cveSet : List String
deriving DecidableEq

/-- The outcome of the fetch-and-parse prefix of `refresh_catalog`:
`fetchFailure` stands for an HTTP error, `raise_for_status`, a JSON decode
failure or a non-object document — all raised before any state mutation —
and `vulnerabilities items` for a successfully parsed entry array. -/
inductive KevPayload where
  | fetchFailure : KevPayload
  | vulnerabilities : List KevItem → KevPayload
deriving DecidableEq

/-- The entry loop of `refresh_catalog` (lines 47-61), started after both
containers were cleared.  Each well-formed entry with a truthy id is written
to the dict and then the set (no suspension point between the two writes);
a malformed element raises, returning the state mutated so far together
with `false`. -/
def processKevItems : KevState → List KevItem → KevState × Bool
  | s, [] => (s, true)
  | s, .malformed :: _ => (s, false)
  | s, .entry cveID d :: rest =>
    match cveID with
    | none => processKevItems s rest
    | some cid =>
      if cid = "" then processKevItems s rest
      else
        processKevItems
          ⟨dictInsert cid (mkKevRecord cid d) s.catalog, setAdd cid s.cveSet⟩
          rest

/-- `KEVClient.refresh_catalog` (kev_client.py lines 27-70) as a transition
on the module state.  A fetch/parse failure raises before any mutation, so
the old snapshot survives; on a parsed payload the code first clears both
containers, then repopulates them in one loop, and a malformed element
aborts mid-loop leaving the partially rebuilt state behind (the `except`
clause logs and re-raises; the retry decorator repeats the same
transition).  Returns the new state and `some count` on success, `none` on
a raised failure. -/
def refresh_catalog (s : KevState) (p : KevPayload) : KevState × Option Nat :=
  match p with
  | .fetchFailure => (s, none)
  | .vulnerabilities items =>
    match processKevItems ⟨[], []⟩ items with
    | (s', true) => (s', some s'.catalog.length)
    | (s', false) => (s', none)

/-- `KEVClient.is_in_kev` (lines 72-74): membership test on the set. -/
def is_in_kev (s : KevState) (cve_id : String) : Bool :=
  s.cveSet.contains cve_id

/-- `KEVClient.get_kev_details` (lines 76-78): lookup in the detail dict. -/
def get_kev_details (s : KevState) (cve_id : String) : Option KevRecord :=
  dictGet cve_id s.catalog

/-- Internal consistency of a snapshot: every member of the set has an entry
in the detail dict and every key of the dict is in the set. -/
def consistentKev (s : KevState) : Prop :=
  (∀ id ∈ s.cveSet, (dictGet id s.catalog).isSome = true) ∧
  (∀ p ∈ s.catalog, p.1 ∈ s.cveSet)

instance (s : KevState) : Decidable (consistentKev s) := by
  unfold consistentKev
  exact instDecidableAnd

/-- A payload entry with every optional field absent. -/
def emptyKevData : KevData :=
  ⟨none, none, none, none, none, none, none, none⟩

/-- A previously refreshed snapshot holding one entry. -/
def kevPrev : KevState :=
  ⟨[("CVE-2021-44228", mkKevRecord "CVE-2021-44228" emptyKevData)],
   ["CVE-2021-44228"]⟩

/-- A refresh payload whose `vulnerabilities` array parses as JSON but whose
second element is not an object, so the loop raises after one entry. -/
def badKevPayload : KevPayload :=
  .vulnerabilities [.entry (some "CVE-2024-0001") emptyKevData, .malformed]

/-! ## NVD client and the scoring orchestration (`nvd_client.py`, `risk_scorer.py`) -/

/-- The claim-relevant part of the normalized record `NVDClient.get_cve`
returns (the remaining metadata fields — vector strings, CWE ids, reference
URLs, dates — are copied verbatim into the enriched dict and are read by no
claim). -/
structure NvdRec where
  description : Option String
  cvss_v3_score : Option ℚ
deriving DecidableEq

/-- The per-call network environment of the orchestrator, passing each fetch
outcome explicitly:
* `nvd` is `NVDClient.get_cve`, which re-raises after exhausting retries
  (`Except.error`) or returns the parsed record / `None` when absent;
* `epssSingle` is the value `EPSSClient.get_epss_score` produces during
  enrichment — never an exception, per `get_epss_score` above;
* `epssBatch` is one batched HTTP request of the bulk path, returning the
  response `data` array as (cve, record) pairs, or raising;
* `kev` is `KEVClient.is_in_kev` against the current snapshot. -/
structure FetchEnv where
  nvd : String → Except Unit (Option NvdRec)
  epssSingle : String → Option EpssRec
  epssBatch : List String → Except Unit (List (String × EpssRec))
  kev : String → Bool

/-- Split a list into chunks of `batch_size = 100`, as the bulk fetch loop
`range(0, len(uncached), 100)` does. -/
def chunks100 : List String → List (List String)
  | [] => []
  | a :: as => ((a :: as).take 100) :: chunks100 ((a :: as).drop 100)
termination_by l => l.length
decreasing_by
  simp [List.length_drop]
  omega

/-- Merge one batch response into the accumulated results dict, keyed by the
`cve` field of each response item. -/
def insertEntries (acc : List (String × EpssRec))
    (entries : List (String × EpssRec)) : List (String × EpssRec) :=
  entries.foldl (fun a p => dictInsert p.1 p.2 a) acc

/-- `EPSSClient.get_epss_scores_bulk` (epss_client.py lines 71-126): cached
identifiers are answered from the cache; the uncached remainder is fetched
in batches of 100, and a failing batch is logged and skipped — its
identifiers simply stay absent from the returned mapping.  (The cache
write-back of fetched entries is omitted: no later read in the modelled
call path consults it.) -/
def get_epss_scores_bulk (cache : List (String × EpssRec))
    (fetchBatch : List String → Except Unit (List (String × EpssRec)))
    (cve_ids : List String) : List (String × EpssRec) :=
  let cached := cve_ids.foldl (fun acc id =>
    match dictGet id cache with
    | some v => dictInsert id v acc
    | none => acc) []
  let uncached := cve_ids.filter (fun id => (dictGet id cache).isNone)
  (chunks100 uncached).foldl (fun acc batch =>
    match fetchBatch batch with
    | .error _ => acc
    | .ok entries => insertEntries acc entries) cached

/-- The claim-relevant part of the merged dict built by
`RiskScorer.enrich_vulnerability` (the enrichment timestamp and the
verbatim metadata copies are read by no claim). -/
structure EnrichedVuln where
  cve_id : String
  description : Option String
  cvss_v3_score : Option ℚ
  epss_score : Option ℚ
  in_kev : Bool
deriving DecidableEq

/-- One element of the list `score_vulnerabilities` returns: the merge
`{**enriched, **score_result}` (no key collides, so both parts survive). -/
structure ScoredVuln where
  enriched : EnrichedVuln
  score : ScoreResult
deriving DecidableEq

/-- The loop body of `score_vulnerabilities` (lines 181-201) for one
identifier, given the already-fetched NVD outcome: enrich, look the
identifier up in the bulk EPSS mapping (`epss_scores.get(cve_id, {})`,
absent means `None` and the scorer's 0.1 default applies), and score. -/
def mkScoredVuln (env : FetchEnv) (bulk : List (String × EpssRec))
    (crit reach : ℚ) (id : String) (nvdData : Option NvdRec) : ScoredVuln :=
  { enriched :=
      { cve_id := id
        description := nvdData.bind fun r => r.description
        cvss_v3_score := nvdData.bind fun r => r.cvss_v3_score
        epss_score := (env.epssSingle id).map fun r => r.epss_score
        in_kev := env.kev id }
    score := calculate_risk_score (nvdData.bind fun r => r.cvss_v3_score)
      ((dictGet id bulk).map fun r => r.epss_score) (env.kev id) crit reach }

/-- The enrichment-and-scoring loop of `score_vulnerabilities`: identifiers
are processed in input order and appended; an NVD fetch failure raises out
of the loop (there is no try/except around `enrich_vulnerability`), so the
first failing identifier aborts the whole call. -/
def scoreAll (env : FetchEnv) (bulk : List (String × EpssRec))
    (crit reach : ℚ) : List String → Except Unit (List ScoredVuln)
  | [] => .ok []
  | id :: rest =>
    match env.nvd id with
    | .error e => .error e
    | .ok nvdData =>
      match scoreAll env bulk crit reach rest with
      | .error e => .error e
      | .ok l => .ok (mkScoredVuln env bulk crit reach id nvdData :: l)

/-- The sort key `x.get("risk_score", 0)` (every entry carries the key). -/
def svKey (e : ScoredVuln) : ℚ := e.score.risk_score

/-- Stable descending insertion: walk past strictly greater keys, stop at the
first less-or-equal key, so an element inserted later (earlier in the input)
lands before equal keys. -/
def insDesc {α : Type} (k : α → ℚ) (x : α) : List α → List α
  | [] => [x]
  | y :: ys => if k x < k y then y :: insDesc k x ys else x :: y :: ys

/-- `list.sort(key=..., reverse=True)`: Python's sort is stable, and a stable
descending sort's output is uniquely determined by sortedness plus
stability, so this insertion sort is an exact model of it. -/
def sortByDesc {α : Type} (k : α → ℚ) : List α → List α
  | [] => []
  | x :: xs => insDesc k x (sortByDesc k xs)

/-- `RiskScorer.score_vulnerabilities` (risk_scorer.py lines 160-207): one
bulk EPSS fetch for the whole input, then the per-identifier
enrich-and-score loop, then the stable descending sort by risk score. -/
def score_vulnerabilities (env : FetchEnv) (cache : List (String × EpssRec))
    (cve_ids : List String)
    (asset_criticality network_reachability : ℚ) :
    Except Unit (List ScoredVuln) :=
  let bulk := get_epss_scores_bulk cache env.epssBatch cve_ids
  match scoreAll env bulk asset_criticality network_reachability cve_ids with
  | .error e => .error e
  | .ok results => .ok (sortByDesc svKey results)

/-! ## Claims C5 and C8: the bulk orchestration -/

/-- An environment in which the severity-source fetch fails (after its
retries) for exactly one identifier, while every other source succeeds. -/
def envC5 : FetchEnv :=
  { nvd := fun id =>
      if id = "CVE-2021-0001" then .error () else .ok (some ⟨none, some 8⟩)
    epssSingle := fun _ => none
    epssBatch := fun _ => .ok []
    kev := fun _ => false }

/-- An environment for the witnesses: severity data absent but fetch
succeeding, every exploit-probability batch fetch failing, nothing
exploited. -/
def envW : FetchEnv :=
  { nvd := fun _ => .ok none
    epssSingle := fun _ => none
    epssBatch := fun _ => .error ()
    kev := fun _ => false }

/-- A cache holding an exploit probability for the third identifier only. -/
def cacheW : List (String × EpssRec) := [("CVE-2020-0003", ⟨9/10, 1/2⟩)]

def idsW : List String := ["CVE-2020-0001", "CVE-2020-0002", "CVE-2020-0003"]

def bulkW : List (String × EpssRec) :=
  get_epss_scores_bulk cacheW envW.epssBatch idsW

/-- The in-input-order result list of the witness call. -/
def preW : List ScoredVuln :=
  [mkScoredVuln envW bulkW 1 1 "CVE-2020-0001" none,
   mkScoredVuln envW bulkW 1 1 "CVE-2020-0002" none,
   mkScoredVuln envW bulkW 1 1 "CVE-2020-0003" none]

/-! ## Lemmas and claim theorems -/

theorem roundHalfEven_nonneg {x : ℚ} (hx : 0 ≤ x) : 0 ≤ roundHalfEven x := by
  unfold roundHalfEven
  split_ifs with h1 h2
  · exact Int.floor_nonneg.mpr hx
  · have := Int.floor_nonneg.mpr hx
    omega
  · have : (0 : ℚ) ≤ x + 1/2 := by linarith
    exact Int.le_floor.mpr (by exact_mod_cast this)

theorem roundHalfEven_le {x : ℚ} {c : ℤ} (hx : x ≤ c) : roundHalfEven x ≤ c := by
  unfold roundHalfEven
  split_ifs with h1 h2
  · have h : (⌊x⌋ : ℚ) ≤ (c : ℚ) := le_trans (Int.floor_le x) hx
    exact_mod_cast h
  · have hfl : (⌊x⌋ : ℚ) = x - 1/2 := by linarith
    have hlt : (⌊x⌋ : ℚ) < (c : ℚ) := by linarith
    have : ⌊x⌋ < c := by exact_mod_cast hlt
    omega
  · have hlt : ⌊x + 1/2⌋ < c + 1 := by
      rw [Int.floor_lt]
      push_cast
      linarith
    omega

theorem round2_nonneg {x : ℚ} (hx : 0 ≤ x) : 0 ≤ round2 x := by
  unfold round2
  have h : (0 : ℚ) ≤ (roundHalfEven (x * 100) : ℚ) := by
    exact_mod_cast roundHalfEven_nonneg (by linarith)
  positivity

theorem round2_le_100 {x : ℚ} (hx : x ≤ 100) : round2 x ≤ 100 := by
  unfold round2
  have h : roundHalfEven (x * 100) ≤ (10000 : ℤ) := by
    apply roundHalfEven_le
    push_cast
    linarith
  have h' : (roundHalfEven (x * 100) : ℚ) ≤ 10000 := by exact_mod_cast h
  linarith

theorem pymin_eq_min (a b : ℚ) : pymin a b = min a b := by
  unfold pymin
  rcases lt_or_ge b a with h | h
  · rw [if_pos h, min_eq_right h.le]
  · rw [if_neg (not_lt.mpr h), min_eq_left h]

theorem roundHalfEven_intCast (z : ℤ) : roundHalfEven (z : ℚ) = z := by
  unfold roundHalfEven
  rw [Int.floor_intCast]
  have h1 : (z : ℚ) - z = 0 := by ring
  rw [h1, if_neg (by norm_num)]
  rw [Int.floor_int_add]
  have h2 : ⌊(1/2 : ℚ)⌋ = 0 := by
    rw [Int.floor_eq_iff]
    norm_num
  rw [h2, add_zero]

theorem round2_of_mul100_int {x : ℚ} {z : ℤ} (h : x * 100 = (z : ℚ)) :
    round2 x = x := by
  unfold round2
  rw [h, roundHalfEven_intCast]
  have : x = (z : ℚ) / 100 := by
    field_simp at h ⊢
    linarith
  linarith [this]

/-- Sanity check: the spec's worked scenario (section 8): cvss 9.8, epss 0.94,
exploited, criticality and reachability 1.5 gives a clamped score of 100. -/
example :
    finalRawScore (some (98/10)) (some (94/100)) true (3/2) (3/2) = 100 := by
  norm_num [finalRawScore, cvssComponent, epssComponent, kevComponent,
    contextComponent, pyOr, pymin, CVSS_WEIGHT, EPSS_WEIGHT, KEV_WEIGHT,
    CONTEXT_WEIGHT]

/-- Sanity check: the spec's defaults scenario: everything missing gives
components 15 + 3.5 + 0 + 10 = 28.5 and tier medium. -/
example :
    finalRawScore none none false 1 1 = 57/2 ∧
    (calculate_risk_score none none false 1 1).severity = "medium" := by
  have h : finalRawScore none none false 1 1 = 57/2 := by
    norm_num [finalRawScore, cvssComponent, epssComponent, kevComponent,
      contextComponent, pyOr, CVSS_WEIGHT, EPSS_WEIGHT, KEV_WEIGHT,
      CONTEXT_WEIGHT]
  refine ⟨h, ?_⟩
  show severityOf (finalRawScore none none false 1 1) = "medium"
  rw [h]
  norm_num [severityOf, CRITICAL_THRESHOLD, HIGH_THRESHOLD, MEDIUM_THRESHOLD]

/-- C1 counterexample: at a present cvss score of 0.0 the claim's formula
gives a severity component of 0, but the scorer computes 15, because the
`or`-based defaulting also replaces a zero value by 5.0. -/
theorem C1_counterexample :
    (calculate_risk_score (some 0) none false 1 1).cvss_component ≠
      round2 (claimSeverityComponent (some 0)) := by
  have h1 : cvssComponent (some 0) = 15 := by
    norm_num [cvssComponent, pyOr, CVSS_WEIGHT]
  have h2 : claimSeverityComponent (some 0) = 0 := by
    norm_num [claimSeverityComponent]
  show round2 (cvssComponent (some 0)) ≠ round2 (claimSeverityComponent (some 0))
  rw [h1, h2, @round2_of_mul100_int 15 1500 (by norm_num),
    @round2_of_mul100_int 0 0 (by norm_num)]
  norm_num

/-- C1 (amended): for every call, the returned component fields are the
two-decimal roundings of severity component (cvssEff/10) × 0.30 × 100,
exploit component probEff × 0.35 × 100, exploited bonus 0.25 × 100 iff
flagged, and context ((crit+reach)/2) × 0.10 × 100 — where cvssEff and
probEff substitute the defaults for a missing OR zero input (Python `or`
truthiness); the raw score is the sum of the four unrounded components, and
when the exploited flag is set the raw sum (not the individual components)
is multiplied by 1.5 and then clamped to at most 100, giving the final
score that is rounded into the returned risk score. -/
theorem C1_amended_formula (cvss epss : Option ℚ) (kev : Bool) (crit reach : ℚ) :
    (calculate_risk_score cvss epss kev crit reach).cvss_component =
      round2 (pyOr cvss 5 / 10 * (30/100) * 100) ∧
    (calculate_risk_score cvss epss kev crit reach).epss_component =
      round2 (pyOr epss (1/10) * (35/100) * 100) ∧
    (calculate_risk_score cvss epss kev crit reach).kev_component =
      round2 (if kev then (25/100) * 100 else 0) ∧
    (calculate_risk_score cvss epss kev crit reach).context_component =
      round2 ((crit + reach) / 2 * (10/100) * 100) ∧
    finalRawScore cvss epss kev crit reach =
      (if kev then
        pymin ((pyOr cvss 5 / 10 * (30/100) * 100 + pyOr epss (1/10) * (35/100) * 100 +
          (25/100) * 100 + (crit + reach) / 2 * (10/100) * 100) * (3/2)) 100
      else
        pyOr cvss 5 / 10 * (30/100) * 100 + pyOr epss (1/10) * (35/100) * 100 +
          (crit + reach) / 2 * (10/100) * 100) ∧
    (calculate_risk_score cvss epss kev crit reach).risk_score =
      round2 (finalRawScore cvss epss kev crit reach) := by
  refine ⟨?_, ?_, ?_, ?_, ?_, rfl⟩
  · show round2 (cvssComponent cvss) = _
    rw [cvssComponent, CVSS_WEIGHT]
    congr 1
    ring
  · show round2 (epssComponent epss) = _
    rw [epssComponent, EPSS_WEIGHT]
  · show round2 (kevComponent kev) = _
    cases kev <;> simp [kevComponent, KEV_WEIGHT]
  · show round2 (contextComponent crit reach) = _
    rw [contextComponent, CONTEXT_WEIGHT]
    congr 1
    ring
  · cases kev <;>
      simp only [finalRawScore, cvssComponent, epssComponent, kevComponent,
        contextComponent, CVSS_WEIGHT, EPSS_WEIGHT, KEV_WEIGHT, CONTEXT_WEIGHT,
        if_true, if_false, Bool.false_eq_true, ite_true, ite_false]
    · ring
    · congr 1
      ring

/-- C2 counterexample: the scorer does not clamp when the exploited flag is
clear, so a context input outside the documented 0.5-1.5 range (here 100)
yields a returned risk score far above 100. -/
theorem C2_counterexample :
    100 < (calculate_risk_score none none false 100 100).risk_score := by
  have h : finalRawScore none none false 100 100 = 2037/2 := by
    norm_num [finalRawScore, cvssComponent, epssComponent, kevComponent,
      contextComponent, pyOr, CVSS_WEIGHT, EPSS_WEIGHT, KEV_WEIGHT,
      CONTEXT_WEIGHT]
  show 100 < round2 (finalRawScore none none false 100 100)
  rw [h, @round2_of_mul100_int (2037/2) 101850 (by norm_num)]
  norm_num

/-- C2 (amended): for inputs within the documented ranges — cvss absent or in
[0, 10], exploit probability absent or in [0, 1], asset criticality and
network reachability in [0.5, 1.5] — the returned risk score lies in the
closed interval [0, 100] (without the exploited flag the sum cannot exceed
80; with it the explicit clamp binds). -/
theorem C2_amended_range (cvss epss : Option ℚ) (kev : Bool) (crit reach : ℚ)
    (hc : cvss = none ∨ ∃ c, cvss = some c ∧ 0 ≤ c ∧ c ≤ 10)
    (he : epss = none ∨ ∃ e, epss = some e ∧ 0 ≤ e ∧ e ≤ 1)
    (hcr : 1/2 ≤ crit ∧ crit ≤ 3/2) (hnr : 1/2 ≤ reach ∧ reach ≤ 3/2) :
    0 ≤ (calculate_risk_score cvss epss kev crit reach).risk_score ∧
    (calculate_risk_score cvss epss kev crit reach).risk_score ≤ 100 := by
  have hc' : 0 ≤ pyOr cvss 5 ∧ pyOr cvss 5 ≤ 10 := by
    rcases hc with h | ⟨c, h, hc0, hc10⟩ <;> subst h
    · exact ⟨by norm_num [pyOr], by norm_num [pyOr]⟩
    · simp only [pyOr]
      split_ifs
      · exact ⟨by norm_num, by norm_num⟩
      · exact ⟨hc0, hc10⟩
  have he' : 0 ≤ pyOr epss (1/10) ∧ pyOr epss (1/10) ≤ 1 := by
    rcases he with h | ⟨e, h, he0, he1⟩ <;> subst h
    · exact ⟨by norm_num [pyOr], by norm_num [pyOr]⟩
    · simp only [pyOr]
      split_ifs
      · exact ⟨by norm_num, by norm_num⟩
      · exact ⟨he0, he1⟩
  have hfr : 0 ≤ finalRawScore cvss epss kev crit reach ∧
      finalRawScore cvss epss kev crit reach ≤ 100 := by
    have hcv : 0 ≤ cvssComponent cvss ∧ cvssComponent cvss ≤ 30 := by
      rw [cvssComponent, CVSS_WEIGHT]
      constructor <;> nlinarith [hc'.1, hc'.2]
    have hep : 0 ≤ epssComponent epss ∧ epssComponent epss ≤ 35 := by
      rw [epssComponent, EPSS_WEIGHT]
      constructor <;> nlinarith [he'.1, he'.2]
    have hctx : 0 ≤ contextComponent crit reach ∧ contextComponent crit reach ≤ 15 := by
      rw [contextComponent, CONTEXT_WEIGHT]
      constructor <;> nlinarith [hcr.1, hcr.2, hnr.1, hnr.2]
    cases kev
    · simp only [finalRawScore, kevComponent, Bool.false_eq_true, if_false, ite_false]
      constructor <;> linarith [hcv.1, hcv.2, hep.1, hep.2, hctx.1, hctx.2]
    · simp only [finalRawScore, kevComponent, KEV_WEIGHT, if_true, ite_true,
        pymin_eq_min]
      constructor
      · apply le_min _ (by norm_num)
        nlinarith [hcv.1, hep.1, hctx.1]
      · exact min_le_right _ _
  exact ⟨round2_nonneg hfr.1, round2_le_100 hfr.2⟩

/-- C2 witness: the amended bound instantiated at cvss 8, exploit probability
0.5, exploited, criticality and reachability 1. -/
theorem C2_witness :
    0 ≤ (calculate_risk_score (some 8) (some (1/2)) true 1 1).risk_score ∧
    (calculate_risk_score (some 8) (some (1/2)) true 1 1).risk_score ≤ 100 :=
  C2_amended_range (some 8) (some (1/2)) true 1 1
    (Or.inr ⟨8, rfl, by norm_num, by norm_num⟩)
    (Or.inr ⟨1/2, rfl, by norm_num, by norm_num⟩)
    ⟨by norm_num, by norm_num⟩ ⟨by norm_num, by norm_num⟩

/-- C3 (confirmed): the severity tier returned by the scorer is exactly the
threshold function of the final (post-multiplier) raw score, and the four
tiers partition the score line with inclusive lower bounds: critical iff
score ≥ 70, high iff 40 ≤ score < 70, medium iff 20 ≤ score < 40, low iff
score < 20 — total, deterministic, no gap or overlap. -/
theorem C3_severity_total_function (cvss epss : Option ℚ) (kev : Bool)
    (crit reach : ℚ) :
    (calculate_risk_score cvss epss kev crit reach).severity =
      severityOf (finalRawScore cvss epss kev crit reach) ∧
    ∀ s : ℚ,
      (severityOf s = "critical" ↔ 70 ≤ s) ∧
      (severityOf s = "high" ↔ 40 ≤ s ∧ s < 70) ∧
      (severityOf s = "medium" ↔ 20 ≤ s ∧ s < 40) ∧
      (severityOf s = "low" ↔ s < 20) := by
  refine ⟨rfl, fun s => ?_⟩
  unfold severityOf CRITICAL_THRESHOLD HIGH_THRESHOLD MEDIUM_THRESHOLD
  split_ifs with h1 h2 h3
  · exact ⟨⟨fun _ => h1, fun _ => rfl⟩,
      ⟨fun hh => absurd hh (by decide), fun hh => absurd hh.2 (not_lt.mpr h1)⟩,
      ⟨fun hh => absurd hh (by decide),
        fun hh => absurd hh.2 (not_lt.mpr (by linarith))⟩,
      ⟨fun hh => absurd hh (by decide),
        fun hh => absurd hh (not_lt.mpr (by linarith))⟩⟩
  · exact ⟨⟨fun hh => absurd hh (by decide), fun hh => absurd hh h1⟩,
      ⟨fun _ => ⟨h2, not_le.mp h1⟩, fun _ => rfl⟩,
      ⟨fun hh => absurd hh (by decide), fun hh => absurd hh.2 (not_lt.mpr h2)⟩,
      ⟨fun hh => absurd hh (by decide),
        fun hh => absurd hh (not_lt.mpr (by linarith))⟩⟩
  · exact ⟨⟨fun hh => absurd hh (by decide), fun hh => absurd hh h1⟩,
      ⟨fun hh => absurd hh (by decide), fun hh => absurd hh.1 h2⟩,
      ⟨fun _ => ⟨h3, not_le.mp h2⟩, fun _ => rfl⟩,
      ⟨fun hh => absurd hh (by decide),
        fun hh => absurd hh (not_lt.mpr h3)⟩⟩
  · exact ⟨⟨fun hh => absurd hh (by decide), fun hh => absurd hh h1⟩,
      ⟨fun hh => absurd hh (by decide), fun hh => absurd hh.1 h2⟩,
      ⟨fun hh => absurd hh (by decide), fun hh => absurd hh.1 h3⟩,
      ⟨fun _ => not_le.mp h3, fun _ => rfl⟩⟩

/-- C4 counterexample: raising cvss from 0.0 to 1.0 (all else fixed) lowers
the raw score from 28.5 to 16.5, because a present 0.0 is replaced by the
default 5.0 while 1.0 is used as-is — so monotonicity fails at the left edge
of [0, 10]. -/
theorem C4_counterexample :
    (0:ℚ) ≤ 0 ∧ (0:ℚ) < 1 ∧ (1:ℚ) ≤ 10 ∧
    finalRawScore (some 1) none false 1 1 <
      finalRawScore (some 0) none false 1 1 := by
  refine ⟨le_refl 0, by norm_num, by norm_num, ?_⟩
  have h0 : finalRawScore (some 0) none false 1 1 = 57/2 := by
    norm_num [finalRawScore, cvssComponent, epssComponent, kevComponent,
      contextComponent, pyOr, CVSS_WEIGHT, EPSS_WEIGHT, KEV_WEIGHT,
      CONTEXT_WEIGHT]
  have h1 : finalRawScore (some 1) none false 1 1 = 33/2 := by
    norm_num [finalRawScore, cvssComponent, epssComponent, kevComponent,
      contextComponent, pyOr, CVSS_WEIGHT, EPSS_WEIGHT, KEV_WEIGHT,
      CONTEXT_WEIGHT]
  rw [h0, h1]
  norm_num

/-- C4 (amended): on the half-open range (0, 10] — excluding 0.0, which the
normalization replaces by the default 5.0 — increasing cvss with all other
inputs fixed never decreases the raw score. -/
theorem C4_amended_monotone (a b : ℚ) (epss : Option ℚ) (kev : Bool)
    (crit reach : ℚ) (ha : 0 < a) (hab : a ≤ b) (hb : b ≤ 10) :
    finalRawScore (some a) epss kev crit reach ≤
      finalRawScore (some b) epss kev crit reach := by
  have hA : pyOr (some a) 5 = a := by
    simp only [pyOr]
    rw [if_neg (ne_of_gt ha)]
  have hB : pyOr (some b) 5 = b := by
    simp only [pyOr]
    rw [if_neg (ne_of_gt (lt_of_lt_of_le ha hab))]
  have hca : cvssComponent (some a) = a * 3 := by
    rw [cvssComponent, CVSS_WEIGHT, hA]; ring
  have hcb : cvssComponent (some b) = b * 3 := by
    rw [cvssComponent, CVSS_WEIGHT, hB]; ring
  cases kev
  · simp only [finalRawScore, Bool.false_eq_true, ite_false, if_false, hca, hcb]
    linarith
  · simp only [finalRawScore, ite_true, if_true, pymin_eq_min, hca, hcb]
    apply min_le_min _ le_rfl
    nlinarith

/-- C4 witness: the amended monotonicity applied at cvss 1 ≤ 2. -/
theorem C4_witness :
    (0:ℚ) < 1 ∧ (1:ℚ) ≤ 2 ∧ (2:ℚ) ≤ 10 ∧
    finalRawScore (some 1) none false 1 1 ≤
      finalRawScore (some 2) none false 1 1 :=
  ⟨by norm_num, by norm_num, by norm_num,
    C4_amended_monotone 1 2 none false 1 1 (by norm_num) (by norm_num)
      (by norm_num)⟩

/-- C10 counterexample: the full returned dictionaries are distinguishable,
because the result echoes the exact input factors: with cvss 0.0 the factors
carry 0.0 where the absent call carries null (and likewise for a zero
exploit probability). -/
theorem C10_counterexample :
    calculate_risk_score (some 0) none false 1 1 ≠
      calculate_risk_score none none false 1 1 ∧
    calculate_risk_score none (some 0) false 1 1 ≠
      calculate_risk_score none none false 1 1 := by
  constructor
  · intro h
    have hp := congrArg ScoreResult.f_cvss_score h
    simp only [calculate_risk_score] at hp
    exact Option.some_ne_none 0 hp
  · intro h
    have hp := congrArg ScoreResult.f_epss_score h
    simp only [calculate_risk_score] at hp
    exact Option.some_ne_none 0 hp

/-- C10 (amended): a zero-valued cvss or exploit probability produces the
same risk score, severity tier and component breakdown as an absent one
(the defaults 5.0/10 and 0.1 are substituted in both cases); only the
echoed input factors differ, so the full results are not identical. -/
theorem C10_amended_zero_as_missing (cvss epss : Option ℚ) (kev : Bool)
    (crit reach : ℚ) :
    scoringParts (calculate_risk_score (some 0) epss kev crit reach) =
      scoringParts (calculate_risk_score none epss kev crit reach) ∧
    scoringParts (calculate_risk_score cvss (some 0) kev crit reach) =
      scoringParts (calculate_risk_score cvss none kev crit reach) := by
  have h1 : pyOr (some 0) 5 = pyOr none 5 := by simp [pyOr]
  have h2 : pyOr (some 0) (1/10) = pyOr none (1/10) := by simp [pyOr]
  constructor <;>
    simp only [scoringParts, calculate_risk_score, finalRawScore,
      cvssComponent, epssComponent, h1, h2]

theorem dictGet_dictInsert_self {β : Type} (k : String) (v : β)
    (l : List (String × β)) : dictGet k (dictInsert k v l) = some v := by
  induction l with
  | nil => simp [dictGet, dictInsert]
  | cons p rest ih =>
    obtain ⟨k', v'⟩ := p
    by_cases h : k' = k
    · simp [dictGet, dictInsert, h]
    · simp [dictGet, dictInsert, h, ih]

theorem dictGet_dictInsert_ne {β : Type} {k k' : String} (v : β)
    (l : List (String × β)) (h : k ≠ k') :
    dictGet k' (dictInsert k v l) = dictGet k' l := by
  induction l with
  | nil => simp [dictGet, dictInsert, h]
  | cons p rest ih =>
    obtain ⟨k0, v0⟩ := p
    by_cases h0 : k0 = k
    · subst h0
      simp [dictGet, dictInsert, h]
    · simp [dictGet, dictInsert, h0, ih]

theorem dictGet_mem {β : Type} {k : String} {v : β} :
    ∀ {l : List (String × β)}, dictGet k l = some v → (k, v) ∈ l := by
  intro l
  induction l with
  | nil => intro h; simp [dictGet] at h
  | cons p rest ih =>
    obtain ⟨k', v'⟩ := p
    intro h
    simp only [dictGet] at h
    by_cases hk : k' = k
    · rw [if_pos hk] at h
      subst hk
      cases h
      exact List.mem_cons_self _ _
    · rw [if_neg hk] at h
      exact List.mem_cons_of_mem _ (ih h)

/-- C7: when the single-identifier fetch fails (its `try` block raises), the
client returns `None` rather than raising — the exception is swallowed at
the client level, the `@retry` decorator never sees it, and the caller
cannot distinguish a failure from a CVE with no data.  The second conjunct
shows no input whatsoever can make the client raise. -/
theorem C7_failure_swallowed_not_raised :
    get_epss_score [] (.error ()) "CVE-2021-44228" = .ok none ∧
    ∀ (cache : List (String × EpssRec)) (fetch : Except Unit (List EpssRec))
      (id : String), ∃ v, get_epss_score cache fetch id = .ok v := by
  constructor
  · rfl
  · intro cache fetch id
    unfold get_epss_score
    cases h : dictGet id cache with
    | some v => exact ⟨some v, rfl⟩
    | none =>
      cases fetch with
      | error e => exact ⟨none, rfl⟩
      | ok l =>
        cases l with
        | nil => exact ⟨none, rfl⟩
        | cons e rest => exact ⟨some e, rfl⟩

/-- C6: a refresh whose payload fails mid-parse (a malformed element after a
valid one) raises — the returned count is `none` — yet the previously held
snapshot is NOT left as it was: the old entry is gone and the partially
rebuilt catalog (holding only the new entry) is left behind, because the
code clears both containers before repopulating them instead of building
the new snapshot aside and swapping.  This contradicts the fail-static
refresh the specification requires. -/
theorem C6_partial_overwrite_on_midparse_failure :
    (refresh_catalog kevPrev badKevPayload).2 = none ∧
    (refresh_catalog kevPrev badKevPayload).1 ≠ kevPrev ∧
    is_in_kev kevPrev "CVE-2021-44228" = true ∧
    is_in_kev (refresh_catalog kevPrev badKevPayload).1 "CVE-2021-44228" = false ∧
    is_in_kev (refresh_catalog kevPrev badKevPayload).1 "CVE-2024-0001" = true := by
  decide

theorem mem_setAdd {a k : String} {s : List String} :
    a ∈ setAdd k s ↔ a = k ∨ a ∈ s := by
  unfold setAdd
  split_ifs with h
  · constructor
    · exact Or.inr
    · rintro (rfl | ha)
      · exact h
      · exact ha
  · simp only [List.mem_append, List.mem_singleton]
    tauto

theorem dictGet_dictInsert_isSome {β : Type} {a k : String} (v : β)
    (l : List (String × β)) :
    (dictGet a (dictInsert k v l)).isSome = true ↔
      a = k ∨ (dictGet a l).isSome = true := by
  by_cases h : a = k
  · subst h
    simp [dictGet_dictInsert_self]
  · rw [dictGet_dictInsert_ne v l (fun he => h he.symm)]
    tauto

theorem mem_dictInsert_keys {β : Type} {p : String × β} {k : String} {v : β} :
    ∀ {l : List (String × β)}, p ∈ dictInsert k v l → p.1 = k ∨ p ∈ l := by
  intro l
  induction l with
  | nil =>
    intro h
    simp only [dictInsert, List.mem_singleton] at h
    subst h
    exact Or.inl rfl
  | cons q rest ih =>
    obtain ⟨k', v'⟩ := q
    intro h
    simp only [dictInsert] at h
    by_cases hk : k' = k
    · rw [if_pos hk] at h
      rcases List.mem_cons.mp h with rfl | hm
      · exact Or.inl rfl
      · exact Or.inr (List.mem_cons_of_mem _ hm)
    · rw [if_neg hk] at h
      rcases List.mem_cons.mp h with rfl | hm
      · exact Or.inr (List.mem_cons_self _ _)
      · rcases ih hm with h1 | h2
        · exact Or.inl h1
        · exact Or.inr (List.mem_cons_of_mem _ h2)

theorem consistentKev_insert {s : KevState} (cid : String) (r : KevRecord)
    (h : consistentKev s) :
    consistentKev ⟨dictInsert cid r s.catalog, setAdd cid s.cveSet⟩ := by
  constructor
  · intro id hid
    rcases mem_setAdd.mp hid with rfl | hmem
    · simp [dictGet_dictInsert_self]
    · rw [dictGet_dictInsert_isSome]
      exact Or.inr (h.1 id hmem)
  · intro p hp
    rcases mem_dictInsert_keys hp with h1 | h2
    · exact mem_setAdd.mpr (Or.inl h1)
    · exact mem_setAdd.mpr (Or.inr (h.2 p h2))

theorem processKevItems_consistent :
    ∀ (items : List KevItem) (s : KevState), consistentKev s →
      consistentKev (processKevItems s items).1 := by
  intro items
  induction items with
  | nil => intro s h; exact h
  | cons it rest ih =>
    intro s h
    cases it with
    | malformed => exact h
    | entry cveID d =>
      cases cveID with
      | none => exact ih s h
      | some cid =>
        by_cases hc : cid = ""
        · simp only [processKevItems, if_pos hc]
          exact ih s h
        · simp only [processKevItems, if_neg hc]
          exact ih _ (consistentKev_insert cid (mkKevRecord cid d) h)

/-- C9 (confirmed): from any consistent snapshot, the membership set and the
detail dict describe the same identifiers — the membership test answers
true exactly when the details lookup succeeds — and consistency is
preserved by every refresh outcome (success, fetch failure, or a mid-parse
abort) and by every intermediate state of the repopulation loop, so no
observable point between mutation steps ever shows an identifier in one
container but not the other. -/
theorem C9_set_and_dict_agree (s : KevState) (h : consistentKev s) :
    (∀ id, is_in_kev s id = true ↔ (get_kev_details s id).isSome = true) ∧
    (∀ p, consistentKev (refresh_catalog s p).1) ∧
    (∀ (items : List KevItem) (s0 : KevState), consistentKev s0 →
      consistentKev (processKevItems s0 items).1) := by
  refine ⟨?_, ?_, processKevItems_consistent⟩
  · intro id
    constructor
    · intro hm
      have hmem : id ∈ s.cveSet := by
        simpa [is_in_kev, List.elem_iff] using hm
      exact h.1 id hmem
    · intro hs
      obtain ⟨v, hv⟩ := Option.isSome_iff_exists.mp hs
      have hp : (id, v) ∈ s.catalog := dictGet_mem hv
      have := h.2 (id, v) hp
      simpa [is_in_kev, List.elem_iff] using this
  · intro p
    cases p with
    | fetchFailure => exact h
    | vulnerabilities items =>
      have hbase : consistentKev ⟨[], []⟩ := by
        constructor
        · intro id hid; simp at hid
        · intro q hq; simp at hq
      have hres := processKevItems_consistent items ⟨[], []⟩ hbase
      simp only [refresh_catalog]
      rcases hm : processKevItems ⟨[], []⟩ items with ⟨s', b⟩
      rw [hm] at hres
      cases b <;> exact hres

/-- C9 witness: the invariant theorem applied to the concrete one-entry
snapshot, including across the failing refresh of C6 (whose resulting
partial state is still internally consistent). -/
theorem C9_witness :
    consistentKev kevPrev ∧
    consistentKev (refresh_catalog kevPrev badKevPayload).1 :=
  ⟨by decide, (C9_set_and_dict_agree kevPrev (by decide)).2.1 badKevPayload⟩

theorem mem_insDesc {α : Type} (k : α → ℚ) (x a : α) :
    ∀ l : List α, a ∈ insDesc k x l ↔ a = x ∨ a ∈ l
  | [] => by simp [insDesc]
  | y :: ys => by
    simp only [insDesc]
    split_ifs with h
    · rw [List.mem_cons, mem_insDesc k x a ys, List.mem_cons]
      tauto
    · simp only [List.mem_cons]

theorem mem_sortByDesc {α : Type} (k : α → ℚ) (a : α) :
    ∀ l : List α, a ∈ sortByDesc k l ↔ a ∈ l
  | [] => Iff.rfl
  | x :: xs => by
    simp only [sortByDesc]
    rw [mem_insDesc, mem_sortByDesc k a xs, List.mem_cons]

theorem pairwise_insDesc {α : Type} (k : α → ℚ) (x : α) :
    ∀ {l : List α}, l.Pairwise (fun a b => k b ≤ k a) →
      (insDesc k x l).Pairwise (fun a b => k b ≤ k a) := by
  intro l
  induction l with
  | nil =>
    intro _
    simp [insDesc]
  | cons y ys ih =>
    intro hp
    rw [List.pairwise_cons] at hp
    obtain ⟨hy, hys⟩ := hp
    simp only [insDesc]
    split_ifs with h
    · rw [List.pairwise_cons]
      refine ⟨fun z hz => ?_, ih hys⟩
      rcases (mem_insDesc k x z ys).mp hz with rfl | hzys
      · exact le_of_lt h
      · exact hy z hzys
    · rw [List.pairwise_cons]
      refine ⟨fun z hz => ?_, ?_⟩
      · rcases List.mem_cons.mp hz with rfl | hzys
        · exact not_lt.mp h
        · exact le_trans (hy z hzys) (not_lt.mp h)
      · rw [List.pairwise_cons]
        exact ⟨hy, hys⟩

theorem sortByDesc_pairwise {α : Type} (k : α → ℚ) :
    ∀ l : List α, (sortByDesc k l).Pairwise (fun a b => k b ≤ k a)
  | [] => List.Pairwise.nil
  | x :: xs => pairwise_insDesc k x (sortByDesc_pairwise k xs)

theorem filter_insDesc {α : Type} (k : α → ℚ) (q : ℚ) (x : α) :
    ∀ l : List α,
      (insDesc k x l).filter (fun a => decide (k a = q)) =
        if k x = q then x :: l.filter (fun a => decide (k a = q))
        else l.filter (fun a => decide (k a = q))
  | [] => by
    by_cases h : k x = q <;> simp [insDesc, h]
  | y :: ys => by
    simp only [insDesc]
    by_cases hxy : k x < k y
    · rw [if_pos hxy]
      by_cases hy : k y = q
      · have hx : ¬ k x = q := by
          intro hc
          rw [hc, hy] at hxy
          exact lt_irrefl q hxy
        simp [List.filter_cons, hy, hx, filter_insDesc k q x ys]
      · simp [List.filter_cons, hy, filter_insDesc k q x ys]
    · rw [if_neg hxy]
      by_cases hx : k x = q <;> simp [List.filter_cons, hx]

theorem filter_sortByDesc {α : Type} (k : α → ℚ) (q : ℚ) :
    ∀ l : List α,
      (sortByDesc k l).filter (fun a => decide (k a = q)) =
        l.filter (fun a => decide (k a = q))
  | [] => rfl
  | x :: xs => by
    simp only [sortByDesc]
    rw [filter_insDesc, filter_sortByDesc k q xs]
    by_cases h : k x = q <;> simp [List.filter_cons, h]

theorem scoreAll_ok_map {env : FetchEnv} {bulk : List (String × EpssRec)}
    {crit reach : ℚ} :
    ∀ {ids : List String} {pre : List ScoredVuln},
      scoreAll env bulk crit reach ids = .ok pre →
      pre.map (fun e => e.enriched.cve_id) = ids := by
  intro ids
  induction ids with
  | nil =>
    intro pre h
    simp only [scoreAll] at h
    cases h
    rfl
  | cons id rest ih =>
    intro pre h
    simp only [scoreAll] at h
    cases hn : env.nvd id with
    | error e =>
      rw [hn] at h
      cases h
    | ok v =>
      rw [hn] at h
      cases hr : scoreAll env bulk crit reach rest with
      | error e =>
        rw [hr] at h
        cases h
      | ok l =>
        rw [hr] at h
        cases h
        simp only [List.map_cons, List.cons.injEq]
        exact ⟨rfl, ih hr⟩

theorem scoreAll_ok_of_nvd_ok (env : FetchEnv) (bulk : List (String × EpssRec))
    (crit reach : ℚ) :
    ∀ ids : List String, (∀ id ∈ ids, ∃ v, env.nvd id = .ok v) →
      ∃ pre, scoreAll env bulk crit reach ids = .ok pre ∧
        ∀ id ∈ ids, ∃ v, env.nvd id = .ok v ∧
          mkScoredVuln env bulk crit reach id v ∈ pre := by
  intro ids
  induction ids with
  | nil =>
    intro _
    exact ⟨[], rfl, fun id hid => absurd hid (List.not_mem_nil id)⟩
  | cons id rest ih =>
    intro h
    obtain ⟨v, hv⟩ := h id (List.mem_cons_self id rest)
    obtain ⟨pre, hpre, hmem⟩ := ih (fun i hi => h i (List.mem_cons_of_mem id hi))
    refine ⟨mkScoredVuln env bulk crit reach id v :: pre, ?_, ?_⟩
    · simp only [scoreAll, hv, hpre]
    · intro i hi
      rcases List.mem_cons.mp hi with rfl | hirest
      · exact ⟨v, hv, List.mem_cons_self _ _⟩
      · obtain ⟨v', hv', hm'⟩ := hmem i hirest
        exact ⟨v', hv', List.mem_cons_of_mem _ hm'⟩

/-- C5 counterexample: with the severity fetch failing for the first
identifier only, the bulk call over two identifiers raises and returns no
result list at all — the unaffected second identifier is not enriched,
scored, or included, so one identifier's fetch failure is not isolated. -/
theorem C5_counterexample :
    score_vulnerabilities envC5 [] ["CVE-2021-0001", "CVE-2021-0002"] 1 1 =
      .error () ∧
    ∀ l, score_vulnerabilities envC5 [] ["CVE-2021-0001", "CVE-2021-0002"] 1 1 ≠
      .ok l := by
  have h : score_vulnerabilities envC5 [] ["CVE-2021-0001", "CVE-2021-0002"] 1 1 =
      .error () := rfl
  refine ⟨h, fun l hl => ?_⟩
  rw [h] at hl
  exact Except.noConfusion hl

/-- C5 (amended): failure isolation holds for the exploit-probability source
but not for the severity source.  Whenever the severity fetch succeeds for
every identifier in the call (exploit-probability batch fetches may fail
arbitrarily), the bulk call returns a result list containing an entry for
every input identifier, and each entry's score is computed from the bulk
EPSS mapping lookup for that identifier — `none` for an identifier whose
batch failed, which the scorer replaces by the 0.1 default.  A severity
fetch failure for one identifier, by contrast, aborts the whole call
(counterexample above). -/
theorem C5_amended_epss_failure_isolated (env : FetchEnv)
    (cache : List (String × EpssRec)) (ids : List String) (crit reach : ℚ)
    (h : ∀ id ∈ ids, ∃ v, env.nvd id = .ok v) :
    ∃ l, score_vulnerabilities env cache ids crit reach = .ok l ∧
      ∀ id ∈ ids, ∃ v, env.nvd id = .ok v ∧
        mkScoredVuln env (get_epss_scores_bulk cache env.epssBatch ids)
          crit reach id v ∈ l ∧
        (mkScoredVuln env (get_epss_scores_bulk cache env.epssBatch ids)
            crit reach id v).score =
          calculate_risk_score (v.bind fun r => r.cvss_v3_score)
            ((dictGet id (get_epss_scores_bulk cache env.epssBatch ids)).map
              fun r => r.epss_score)
            (env.kev id) crit reach := by
  obtain ⟨pre, hpre, hmem⟩ :=
    scoreAll_ok_of_nvd_ok env (get_epss_scores_bulk cache env.epssBatch ids)
      crit reach ids h
  refine ⟨sortByDesc svKey pre, ?_, ?_⟩
  · simp only [score_vulnerabilities, hpre]
  · intro id hid
    obtain ⟨v, hv, hm⟩ := hmem id hid
    exact ⟨v, hv, (mem_sortByDesc svKey _ pre).mpr hm, rfl⟩

/-- C5 witness: the amended isolation theorem applied to a concrete call in
which the only batch fetch fails; the call still succeeds for all three
identifiers. -/
theorem C5_witness :
    ∃ l, score_vulnerabilities envW cacheW idsW 1 1 = .ok l ∧
      ∀ id ∈ idsW, ∃ v, envW.nvd id = .ok v ∧
        mkScoredVuln envW bulkW 1 1 id v ∈ l ∧
        (mkScoredVuln envW bulkW 1 1 id v).score =
          calculate_risk_score (v.bind fun r => r.cvss_v3_score)
            ((dictGet id bulkW).map fun r => r.epss_score)
            (envW.kev id) 1 1 :=
  C5_amended_epss_failure_isolated envW cacheW idsW 1 1
    (fun id _ => ⟨none, rfl⟩)

/-- C8 (confirmed): whenever the enrichment loop succeeds with the
in-input-order list `pre` (whose identifiers are exactly the input list, in
order — second conjunct), the bulk call returns the stable descending sort
of `pre`: scores are pairwise non-increasing, and for every score value the
entries carrying it appear in exactly their original input order (the
filtered sublist is unchanged). -/
theorem C8_sorted_stable_ties (env : FetchEnv)
    (cache : List (String × EpssRec)) (ids : List String) (crit reach : ℚ)
    (pre : List ScoredVuln)
    (h : scoreAll env (get_epss_scores_bulk cache env.epssBatch ids)
      crit reach ids = .ok pre) :
    score_vulnerabilities env cache ids crit reach =
      .ok (sortByDesc svKey pre) ∧
    pre.map (fun e => e.enriched.cve_id) = ids ∧
    (sortByDesc svKey pre).Pairwise (fun a b => svKey b ≤ svKey a) ∧
    ∀ q : ℚ, (sortByDesc svKey pre).filter (fun e => decide (svKey e = q)) =
      pre.filter (fun e => decide (svKey e = q)) := by
  refine ⟨?_, scoreAll_ok_map h, sortByDesc_pairwise svKey pre,
    fun q => filter_sortByDesc svKey q pre⟩
  simp only [score_vulnerabilities, h]

/-- C8 witness: the sortedness-and-stability theorem applied to the concrete
three-identifier call of the C5 witness. -/
theorem C8_witness :
    scoreAll envW bulkW 1 1 idsW = .ok preW ∧
    score_vulnerabilities envW cacheW idsW 1 1 = .ok (sortByDesc svKey preW) ∧
    preW.map (fun e => e.enriched.cve_id) = idsW ∧
    (sortByDesc svKey preW).Pairwise (fun a b => svKey b ≤ svKey a) :=
  ⟨rfl, (C8_sorted_stable_ties envW cacheW idsW 1 1 preW rfl).1,
    (C8_sorted_stable_ties envW cacheW idsW 1 1 preW rfl).2.1,
    (C8_sorted_stable_ties envW cacheW idsW 1 1 preW rfl).2.2.1⟩
